import Mathlib

/-
Shallow embedding of the data-reduction pipeline of the RadioAxionSearch
notebooks (Effelsberg and GBT examples).  Arrays of floating-point samples are
modelled as lists of rationals; numpy operations that can raise become
Option-valued.  The notebooks run under Python 2, so division of the integer
array length by the integer downsampling factor is floor division.
-/

namespace AxionSearch

set_option linter.unusedVariables false

/-- Arithmetic mean of a list of rationals, as np.mean: sum divided by length
(the empty list gives 0/0 = 0 in the rationals). -/
def mean (l : List ℚ) : ℚ := l.sum / l.length

/-- Block means of downbin for a positive downsampling factor d.  In the
source, arr[:max_index].reshape(num_intervals, downsample) has as its row i
the slice arr[i*d : (i+1)*d], and np.mean(_, axis = 1) takes the mean of each
row; num_intervals = len(arr) / d with Python 2 floor division. -/
def downbinPos (arr : List ℚ) (d : ℕ) : List ℚ :=
  (List.range (arr.length / d)).map (fun i => mean ((arr.drop (i * d)).take d))

/-- downbin from the Effelsberg notebook:

    def downbin(arr, downsample = 3, shift = 0):
        arr = np.copy(arr[0:])
        max_index = len(arr) / downsample * downsample
        num_intervals = len(arr) / downsample
        return np.mean(arr[:max_index].reshape(num_intervals, downsample), axis = 1)

The shift parameter never occurs in the body.  downsample = 0 raises
ZeroDivisionError.  For downsample < 0, num_intervals = len(arr)/downsample is
negative when arr is nonempty, so reshape receives two negative dimensions and
raises ValueError (numpy treats every negative entry of a shape as an unknown
dimension and allows at most one); when arr is empty, reshape(0, downsample)
has an unknown dimension that cannot be resolved against the known dimension 0
and also raises ValueError.  Failures are modelled as none. -/
def downbin (arr : List ℚ) (downsample : ℤ) ( shift : ℤ) : Option (List ℚ) :=
  if 0 < downsample then some (downbinPos arr downsample.toNat) else none

theorem downbinPos_length (arr : List ℚ) (d : ℕ) :
    (downbinPos arr d).length = arr.length / d := by
  simp [downbinPos]

theorem downbinPos_getD (arr : List ℚ) (d i : ℕ) (hi : i < arr.length / d) :
    (downbinPos arr d).getD i 0 = mean ((arr.drop (i * d)).take d) := by
  simp [downbinPos, List.getD_eq_getElem?_getD, List.getElem?_map,
    List.getElem?_range, hi]

theorem downbinPos_one (arr : List ℚ) : downbinPos arr 1 = arr := by
  apply List.ext_getElem
  · simp [downbinPos]
  · intro i h1 h2
    simp only [downbinPos, List.getElem_map, List.getElem_range, mul_one]
    rw [List.take_one_drop_eq_of_lt_length h2]
    simp [mean]

/-- C2: for every ordered sequence of N samples and every positive integer
downsampling factor k, downbin succeeds and produces exactly floor(N/k) samples,
the i-th being the arithmetic mean of the input block at indices i*k .. i*k+k-1
in original order; the trailing N mod k samples are discarded (length 0 when
k > N); and downbinning [1,2,3,4,5,6,7] by 3 yields [2, 5]. -/
theorem downbin_block_mean_spec (arr : List ℚ) (k : ℤ) (hk : 0 < k) :
    downbin arr k 0 = some (downbinPos arr k.toNat) ∧
    (downbinPos arr k.toNat).length = arr.length / k.toNat ∧
    (∀ i, i < arr.length / k.toNat →
      (downbinPos arr k.toNat).getD i 0 = mean ((arr.drop (i * k.toNat)).take k.toNat)) ∧
    (arr.length < k.toNat → downbinPos arr k.toNat = []) ∧
    downbin [1, 2, 3, 4, 5, 6, 7] 3 0 = some [2, 5] := by
  refine ⟨by simp [downbin, hk], downbinPos_length _ _,
    fun i hi => downbinPos_getD _ _ _ hi, ?_, ?_⟩
  · intro h
    simp [downbinPos, Nat.div_eq_of_lt h]
  · have e0 : ([1, 2, 3, 4, 5, 6, 7] : List ℚ).take 3 = [1, 2, 3] := rfl
    have e1 : ([1, 2, 3, 4, 5, 6, 7] : List ℚ).drop 3 = [4, 5, 6, 7] := rfl
    have e2 : ([4, 5, 6, 7] : List ℚ).take 3 = [4, 5, 6] := rfl
    have hr : List.range 2 = [0, 1] := by decide
    simp [downbin, downbinPos, hr, e0, e1, e2, mean]
    norm_num

/-- Witness for C2 at the concrete input [1,2,3] with factor 2. -/
theorem downbin_block_mean_spec_witness :
    (0 : ℤ) < 2 ∧ downbin [1, 2, 3] 2 0 = some (downbinPos [1, 2, 3] 2) :=
  ⟨by norm_num, (downbin_block_mean_spec [1, 2, 3] 2 (by norm_num)).1⟩

/-- C7: invoking downbin with a downsampling factor k ≤ 0 fails (k = 0 raises
ZeroDivisionError, k < 0 raises ValueError in reshape); no value is returned,
for every input array and every shift. -/
theorem downbin_nonpositive_fails (arr : List ℚ) (k s : ℤ) (hk : k ≤ 0) :
    downbin arr k s = none := by
  have h : ¬ 0 < k := by omega
  simp [downbin, h]

/-- Witness for C7 at the concrete input [1, 2] with factor 0 and shift 5. -/
theorem downbin_nonpositive_fails_witness :
    (0 : ℤ) ≤ 0 ∧ downbin [1, 2] 0 5 = none :=
  ⟨le_refl 0, downbin_nonpositive_fails [1, 2] 0 5 (le_refl 0)⟩

/-- C9: the result of downbin does not depend on the shift argument, which the
body of the source function never reads. -/
theorem downbin_shift_independent (arr : List ℚ) (k s : ℤ) :
    downbin arr k s = downbin arr k 0 := rfl

/-- C10: downbin with downsampling factor 1 is the identity, also on the empty
array. -/
theorem downbin_one_identity (arr : List ℚ) : downbin arr 1 0 = some arr := by
  simp [downbin, downbinPos_one]

/-- np.where(np.logical_and(lo <= freqs, freqs <= hi)): the increasing list of
channel indices whose frequency lies in the inclusive band [lo, hi]. -/
def whereLocs (freqs : List ℚ) (lo hi : ℚ) : List ℕ :=
  (List.range freqs.length).filter
    (fun i => decide (lo ≤ freqs.getD i 0 ∧ freqs.getD i 0 ≤ hi))

/-- Fancy indexing arr[locs] with an index list produced by np.where. -/
def select (arr : List ℚ) (locs : List ℕ) : List ℚ :=
  locs.filterMap (fun i => arr[i]?)

/-- np.ones_like(freqs): an all-ones array of the length of freqs; entries are
Option-valued so that NaN can be written into them (none models NaN). -/
def onesLike (freqs : List ℚ) : List (Option ℚ) := freqs.map (fun _ => some 1)

/-- The notch-filter mask of the GBT notebook:

    mask_locs = np.where(np.logical_and(M31_Freqs >= 1.2, M31_Freqs <= 1.34))
    mask = np.ones_like(M31_Freqs)
    mask[mask_locs] = np.nan

NaN entries are modelled as none. -/
def mask (freqs : List ℚ) (mlo mhi : ℚ) : List (Option ℚ) :=
  (whereLocs freqs mlo mhi).foldl (fun m i => m.set i none) (onesLike freqs)

/-- Multiplicative application of the mask, as in mask * (Cal_Func * M31_AntennaTemp):
any product with NaN is NaN. -/
def applyMask (m : List (Option ℚ)) (vals : List ℚ) : List (Option ℚ) :=
  List.zipWith (fun mv v => mv.map (fun x => x * v)) m vals

/-- The Reduce-the-Data cell of the GBT notebook:

    locs = np.where(np.logical_and(M31_Freqs >= 1.15, M31_Freqs <= 1.73))
    for item in [M31_Freqs, M31_AntennaTemp, M31_Sig, M31_Ref, M31_SigAccept,
                 M31_RefAccept, Cal_Func]:
        item = item[locs]

The loop body computes item[locs] and rebinds only the loop-local name item;
the seven arrays named outside the loop are never reassigned, so the cell
leaves all of them unchanged. -/
def gbtReduce (freqs temp sig ref sigAcc refAcc cal : List ℚ) (lo hi : ℚ) :
    List ℚ × List ℚ × List ℚ × List ℚ × List ℚ × List ℚ × List ℚ :=
  let locs := whereLocs freqs lo hi
  let items := [freqs, temp, sig, ref, sigAcc, refAcc, cal].map (fun a => select a locs)
  (freqs, temp, sig, ref, sigAcc, refAcc, cal)

theorem mem_whereLocs (freqs : List ℚ) (lo hi : ℚ) (j : ℕ) :
    j ∈ whereLocs freqs lo hi ↔
      j < freqs.length ∧ lo ≤ freqs.getD j 0 ∧ freqs.getD j 0 ≤ hi := by
  simp [whereLocs, List.mem_filter, List.mem_range]

/-- C8: when no channel satisfies the bound, frequency-range restriction does
not raise; it returns the empty index set, and restricting the frequency array
and any co-indexed array yields empty arrays. -/
theorem restrict_empty_ok (freqs arr : List ℚ) (lo hi : ℚ)
    (h : ∀ f ∈ freqs, ¬ (lo ≤ f ∧ f ≤ hi)) :
    whereLocs freqs lo hi = [] ∧
    select freqs (whereLocs freqs lo hi) = [] ∧
    select arr (whereLocs freqs lo hi) = [] := by
  have hw : whereLocs freqs lo hi = [] := by
    rw [whereLocs, List.filter_eq_nil_iff]
    intro i hi'
    have hil : i < freqs.length := List.mem_range.mp hi'
    have hmem : freqs.getD i 0 ∈ freqs := by
      rw [List.getD_eq_getElem _ _ hil]
      exact List.getElem_mem hil
    simpa using h _ hmem
  exact ⟨hw, by simp [hw, select], by simp [hw, select]⟩

/-- Witness for C8: no channel of [1, 2] lies in the band [3, 4]. -/
theorem restrict_empty_ok_witness :
    (∀ f ∈ ([1, 2] : List ℚ), ¬ ((3 : ℚ) ≤ f ∧ f ≤ 4)) ∧
    whereLocs [1, 2] 3 4 = [] ∧
    select [1, 2] (whereLocs [1, 2] 3 4) = [] ∧
    select [9, 9] (whereLocs [1, 2] 3 4) = [] := by
  have h : ∀ f ∈ ([1, 2] : List ℚ), ¬ ((3 : ℚ) ≤ f ∧ f ≤ 4) := by
    intro f hf
    fin_cases hf <;> norm_num
  exact ⟨h, restrict_empty_ok [1, 2] [9, 9] 3 4 h⟩

theorem foldl_set_length (locs : List ℕ) (m : List (Option ℚ)) :
    (locs.foldl (fun m i => m.set i none) m).length = m.length := by
  induction locs generalizing m with
  | nil => rfl
  | cons i locs ih => simpa [List.length_set] using ih (m.set i none)

theorem foldl_set_getElem? (locs : List ℕ) (m : List (Option ℚ)) (j : ℕ) :
    (locs.foldl (fun m i => m.set i none) m)[j]? =
      if j ∈ locs ∧ j < m.length then some none else m[j]? := by
  induction locs generalizing m with
  | nil => simp
  | cons i locs ih =>
    rw [List.foldl_cons, ih (m.set i none), List.length_set]
    by_cases h1 : j ∈ locs ∧ j < m.length
    · rw [if_pos h1, if_pos ⟨List.mem_cons_of_mem i h1.1, h1.2⟩]
    · rw [if_neg h1, List.getElem?_set]
      by_cases h2 : i = j
      · subst h2
        by_cases h3 : i < m.length
        · rw [if_pos rfl, if_pos h3, if_pos ⟨List.mem_cons_self i locs, h3⟩]
        · rw [if_pos rfl, if_neg h3, if_neg (fun hc => h3 hc.2)]
          exact (List.getElem?_eq_none (Nat.le_of_not_lt h3)).symm
      · rw [if_neg h2]
        have hn : ¬ (j ∈ i :: locs ∧ j < m.length) := by
          rintro ⟨hm, hlt⟩
          rcases List.mem_cons.mp hm with rfl | hm'
          · exact h2 rfl
          · exact h1 ⟨hm', hlt⟩
        rw [if_neg hn]

theorem mask_length (freqs : List ℚ) (mlo mhi : ℚ) :
    (mask freqs mlo mhi).length = freqs.length := by
  rw [mask, foldl_set_length]
  simp [onesLike]

theorem mask_getElem? (freqs : List ℚ) (mlo mhi : ℚ) (j : ℕ) (hj : j < freqs.length) :
    (mask freqs mlo mhi)[j]? =
      if mlo ≤ freqs.getD j 0 ∧ freqs.getD j 0 ≤ mhi then some none else some (some 1) := by
  have hl : (onesLike freqs).length = freqs.length := by simp [onesLike]
  rw [mask, foldl_set_getElem?, hl]
  have ho : (onesLike freqs)[j]? = some (some 1) := by
    rw [onesLike, List.getElem?_map, List.getElem?_eq_getElem hj]
    rfl
  by_cases hc : mlo ≤ freqs.getD j 0 ∧ freqs.getD j 0 ≤ mhi
  · rw [if_pos ⟨(mem_whereLocs freqs mlo mhi j).mpr ⟨hj, hc⟩, hj⟩, if_pos hc]
  · have hn : ¬ (j ∈ whereLocs freqs mlo mhi ∧ j < freqs.length) := by
      rintro ⟨hmem, -⟩
      exact hc ((mem_whereLocs freqs mlo mhi j).mp hmem).2
    rw [if_neg hn, if_neg hc, ho]

/-- C5: interference-band masking produces a mask of the same length as the
frequency array, equal to 1 at every channel outside [mlo, mhi] and NaN (none)
at every channel inside, and applying the mask multiplicatively preserves the
length of the masked array. -/
theorem mask_spec (freqs : List ℚ) (mlo mhi : ℚ) :
    (mask freqs mlo mhi).length = freqs.length ∧
    (∀ j, j < freqs.length →
      (mask freqs mlo mhi).getD j (some 0) =
        if mlo ≤ freqs.getD j 0 ∧ freqs.getD j 0 ≤ mhi then none else some 1) ∧
    (∀ vals : List ℚ, vals.length = freqs.length →
      (applyMask (mask freqs mlo mhi) vals).length = vals.length) := by
  refine ⟨mask_length freqs mlo mhi, fun j hj => ?_, fun vals hv => ?_⟩
  · rw [List.getD_eq_getElem?_getD, mask_getElem? freqs mlo mhi j hj]
    by_cases hc : mlo ≤ freqs.getD j 0 ∧ freqs.getD j 0 ≤ mhi
    · rw [if_pos hc, if_pos hc]
      rfl
    · rw [if_neg hc, if_neg hc]
      rfl
  · simp [applyMask, mask_length, hv]

/-- Witness for C5 at the spec scenario: frequencies [1, 1.2, 1.25, 1.3, 1.4]
with blanked band [1.2, 1.3] give mask entries NaN at channel 1 and 1 at
channel 0, mask length 5, and applying the mask preserves length 5. -/
theorem mask_spec_witness :
    (mask [1, 6/5, 5/4, 13/10, 7/5] (6/5) (13/10)).length = 5 ∧
    (mask [1, 6/5, 5/4, 13/10, 7/5] (6/5) (13/10)).getD 1 (some 0) = none ∧
    (mask [1, 6/5, 5/4, 13/10, 7/5] (6/5) (13/10)).getD 0 (some 0) = some 1 ∧
    (applyMask (mask [1, 6/5, 5/4, 13/10, 7/5] (6/5) (13/10)) [9, 9, 9, 9, 9]).length = 5 := by
  have h := mask_spec [1, 6/5, 5/4, 13/10, 7/5] (6/5) (13/10)
  have hg1 : ([1, 6/5, 5/4, 13/10, 7/5] : List ℚ).getD 1 0 = 6/5 := rfl
  have hg0 : ([1, 6/5, 5/4, 13/10, 7/5] : List ℚ).getD 0 0 = 1 := rfl
  refine ⟨by simpa using h.1, ?_, ?_, by simpa using h.2.2 [9, 9, 9, 9, 9] (by simp)⟩
  · rw [h.2.1 1 (by norm_num), hg1, if_pos (by norm_num)]
  · rw [h.2.1 0 (by norm_num), hg0, if_neg (by norm_num)]

/-- C1 (code bug): in the GBT notebook the Reduce-the-Data cell fails to apply
the frequency-range restriction: its for-loop rebinds the loop variable only,
so every one of the seven arrays is returned unchanged and out-of-band
channels survive, whereas the same index subset, applied as in the Effelsberg
notebook, would keep exactly the in-band channels. -/
theorem gbt_reduce_loop_noop :
    gbtReduce [1, 3/2, 2] [5, 6, 7] [0, 0, 0] [0, 0, 0] [1, 1, 1] [1, 1, 1] [2, 2, 2]
        (23/20) (173/100) =
      ([1, 3/2, 2], [5, 6, 7], [0, 0, 0], [0, 0, 0], [1, 1, 1], [1, 1, 1], [2, 2, 2]) ∧
    ¬ (∀ f ∈ (gbtReduce [1, 3/2, 2] [5, 6, 7] [0, 0, 0] [0, 0, 0] [1, 1, 1] [1, 1, 1]
          [2, 2, 2] (23/20) (173/100)).1, 23/20 ≤ f ∧ f ≤ 173/100) ∧
    select [1, 3/2, 2] (whereLocs [1, 3/2, 2] (23/20) (173/100)) = [3/2] := by
  refine ⟨rfl, ?_, ?_⟩
  · intro hall
    have hmem : (1 : ℚ) ∈ (gbtReduce [1, 3/2, 2] [5, 6, 7] [0, 0, 0] [0, 0, 0] [1, 1, 1]
        [1, 1, 1] [2, 2, 2] (23/20) (173/100)).1 := by
      show (1 : ℚ) ∈ [1, 3/2, 2]
      simp
    exact absurd (hall 1 hmem).1 (by norm_num)
  · have hg0 : ([1, 3/2, 2] : List ℚ).getD 0 0 = 1 := rfl
    have hg1 : ([1, 3/2, 2] : List ℚ).getD 1 0 = 3/2 := rfl
    have hg2 : ([1, 3/2, 2] : List ℚ).getD 2 0 = 2 := rfl
    have hr : List.range (([1, 3/2, 2] : List ℚ).length) = [0, 1, 2] := rfl
    have hw : whereLocs [1, 3/2, 2] (23/20) (173/100) = [1] := by
      rw [whereLocs, hr, List.filter_cons, List.filter_cons, List.filter_cons,
        List.filter_nil, hg0, hg1, hg2]
      norm_num
    rw [hw]
    rfl

/-- Insertion of a rational into a sorted list, for taking medians. -/
def insortQ (x : ℚ) : List ℚ → List ℚ
  | [] => [x]
  | y :: ys => if x ≤ y then x :: y :: ys else y :: insortQ x ys

/-- Insertion sort on rationals. -/
def sortQ : List ℚ → List ℚ
  | [] => []
  | x :: xs => insortQ x (sortQ xs)

/-- Median of a list: the middle element of the sorted list; the notebooks only
take medians of odd-size windows, where this is the unique middle rank. -/
def median (l : List ℚ) : ℚ := (sortQ l).getD (l.length / 2) 0

/-- Index into the reflected extension of an array of length n, the scipy
ndimage boundary mode 'reflect' that ndimage.median_filter defaults to: the
extension (d c b a | a b c d | d c b a) is periodic with period 2n. -/
def reflectIndex (n : ℕ) (j : ℤ) : ℕ :=
  let m := (j % (2 * (n : ℤ))).toNat
  if m < n then m else 2 * n - 1 - m

/-- The window of width size centred at channel i (scipy origin 0), read off
the reflect-padded array. -/
def windowReflect (arr : List ℚ) (size i : ℕ) : List ℚ :=
  (List.range size).map
    (fun (k : ℕ) =>
      arr.getD (reflectIndex arr.length ((i : ℤ) + (k : ℤ) - ((size / 2 : ℕ) : ℤ))) 0)

/-- scipy.ndimage.median_filter(arr, size) on one-dimensional input, with the
default boundary mode 'reflect', as called in both notebooks. -/
def median_filter (arr : List ℚ) (size : ℕ) : List ℚ :=
  (List.range arr.length).map (fun i => median (windowReflect arr size i))

/-- Modelled from the spec: index clamped to the array bounds, the
repeat-the-nearest-edge-sample padding (scipy mode 'nearest') that the spec
asserts for the edge handling; the notebooks do not pass a mode argument. -/
def clampIndex (n : ℕ) (j : ℤ) : ℕ := (min j ((n : ℤ) - 1)).toNat

/-- Modelled from the spec: window read off the clamp-padded array. -/
def windowNearest (arr : List ℚ) (size i : ℕ) : List ℚ :=
  (List.range size).map
    (fun (k : ℕ) =>
      arr.getD (clampIndex arr.length ((i : ℤ) + (k : ℤ) - ((size / 2 : ℕ) : ℤ))) 0)

/-- Modelled from the spec: the sliding median with clamped edge padding. -/
def median_filter_nearest (arr : List ℚ) (size : ℕ) : List ℚ :=
  (List.range arr.length).map (fun i => median (windowNearest arr size i))

theorem reflectIndex_of_lt (n j : ℕ) (h : j < n) : reflectIndex n (j : ℤ) = j := by
  have h2 : (j : ℤ) % (2 * (n : ℤ)) = j := Int.emod_eq_of_lt (by positivity) (by omega)
  simp [reflectIndex, h2, h]

theorem windowReflect_interior (arr : List ℚ) (r i : ℕ)
    (h1 : r ≤ i) (h2 : i + r < arr.length) :
    windowReflect arr (2 * r + 1) i = (arr.drop (i - r)).take (2 * r + 1) := by
  have hs : (2 * r + 1) / 2 = r := by omega
  apply List.ext_getElem?
  intro k
  by_cases hk : k < 2 * r + 1
  · have hjn : i - r + k < arr.length := by omega
    have hcast : (i : ℤ) + (k : ℤ) - (((2 * r + 1) / 2 : ℕ) : ℤ) = ((i - r + k : ℕ) : ℤ) := by
      rw [hs]
      omega
    rw [windowReflect, List.getElem?_map, List.getElem?_range hk]
    rw [List.getElem?_take_of_lt hk, List.getElem?_drop,
      List.getElem?_eq_getElem hjn]
    simp only [Option.map_some']
    rw [hcast, reflectIndex_of_lt _ _ hjn, List.getD_eq_getElem _ _ hjn]
  · have hnone : (List.range (2 * r + 1))[k]? = none :=
      List.getElem?_eq_none (by simpa using Nat.le_of_not_lt hk)
    rw [windowReflect, List.getElem?_map, hnone]
    have hlen : ((arr.drop (i - r)).take (2 * r + 1)).length ≤ k := by
      have := List.length_take (2 * r + 1) (arr.drop (i - r))
      omega
    rw [List.getElem?_eq_none hlen]
    rfl

theorem median_filter_length (arr : List ℚ) (size : ℕ) :
    (median_filter arr size).length = arr.length := by
  simp [median_filter]

/-- C3 counterexample: on the array [0, 1, 2, 3, 4] with window width 5 the
filter the notebooks call (scipy default boundary mode 'reflect') disagrees
with the clamp-padded filter the claim describes, so the edge handling is not
clamping to the boundary values. -/
theorem median_filter_edge_not_clamped :
    median_filter [0, 1, 2, 3, 4] 5 ≠ median_filter_nearest [0, 1, 2, 3, 4] 5 := by
  decide

/-- C3 amended: the sliding median filter has a fixed odd window width (31 and
201, the instrument-dependent widths, are odd), output index-aligned with the
input; away from the edges each output channel is the median of its contiguous
window, and the edges are padded by reflection (scipy default mode 'reflect'),
not by clamping; on [0, 1, 2, 3, 4] with width 5 it yields [1, 1, 2, 3, 3]. -/
theorem median_filter_oddwindow (arr : List ℚ) (r i : ℕ)
    (h1 : r ≤ i) (h2 : i + r < arr.length) :
    Odd 31 ∧ Odd 201 ∧
    (median_filter arr (2 * r + 1)).length = arr.length ∧
    (median_filter arr (2 * r + 1)).getD i 0 =
      median ((arr.drop (i - r)).take (2 * r + 1)) ∧
    median_filter [0, 1, 2, 3, 4] 5 = [1, 1, 2, 3, 3] := by
  have hi : i < arr.length := by omega
  refine ⟨by decide, by decide, median_filter_length _ _, ?_, by decide⟩
  simp [median_filter, List.getD_eq_getElem?_getD, List.getElem?_map,
    List.getElem?_range, hi, windowReflect_interior arr r i h1 h2]

/-- Witness for C3 (amended) at arr = [0, 1, 2, 3, 4], half-width r = 1,
channel i = 1. -/
theorem median_filter_oddwindow_witness :
    1 ≤ 1 ∧ 1 + 1 < ([0, 1, 2, 3, 4] : List ℚ).length ∧
    (median_filter [0, 1, 2, 3, 4] (2 * 1 + 1)).getD 1 0 =
      median ((([0, 1, 2, 3, 4] : List ℚ).drop (1 - 1)).take (2 * 1 + 1)) :=
  ⟨le_refl 1, by simp,
    (median_filter_oddwindow [0, 1, 2, 3, 4] 1 1 (le_refl 1) (by simp)).2.2.2.1⟩

/-- Calibration-function derivation: the expected flux-density curve divided
channel by channel by the median-filter smoothed antenna temperature,

    Cal_Func = load.get_expected(Cal_Freqs, '3C48')
                 / ndimage.median_filter(Cal_AntennaTemp, size = 31)

in the GBT notebook (and likewise with size 201 for the Effelsberg bands). -/
def calFunc (expected antennaTemp : List ℚ) (size : ℕ) : List ℚ :=
  List.zipWith (fun e s => e / s) expected (median_filter antennaTemp size)

/-- np.interp at one point over the paired sample points (the data's sample
grids are increasing): constant continuation below the first and above the
last sample point, linear interpolation on each inner segment. -/
def interpP (x : ℚ) : List (ℚ × ℚ) → ℚ
  | [] => 0
  | [(_, f0)] => f0
  | (x0, f0) :: (x1, f1) :: ps =>
    if x ≤ x0 then f0
    else if x ≤ x1 then f0 + (x - x0) * (f1 - f0) / (x1 - x0)
    else interpP x ((x1, f1) :: ps)

/-- np.interp(xs, xp, fp): interpolate every query point. -/
def npInterp (xs xp fp : List ℚ) : List ℚ :=
  xs.map (fun x => interpP x (xp.zip fp))

/-- An Effelsberg band calibration, e.g.

    SBand_Cal = np.interp(SBand_Freqs, Cal_Freqs, Cal_FD)
                  / ndimage.median_filter(SBand_On_Data, size = 201):

the expected-flux curve is first resampled onto the band's frequency grid by
linear interpolation, then divided by the smoothed measured data. -/
def bandCal (bandFreqs bandOnData calFreqs calFD : List ℚ) (size : ℕ) : List ℚ :=
  calFunc (npInterp bandFreqs calFreqs calFD) bandOnData size

/-- Calibration application, the plotted flux density: LBand_Cal * LBand_On_Data,
SBand_Cal * SBand_On_Data, Cal_Func * M31_AntennaTemp. -/
def calibratedFlux (cal data : List ℚ) : List ℚ :=
  List.zipWith (fun c t => c * t) cal data

theorem zipWith_div_getD (as bs : List ℚ) (i : ℕ) (ha : i < as.length)
    (hb : i < bs.length) :
    (List.zipWith (fun e s => e / s) as bs).getD i 0 = as.getD i 0 / bs.getD i 0 := by
  rw [List.getD_eq_getElem?_getD, List.getElem?_zipWith,
    List.getElem?_eq_getElem ha, List.getElem?_eq_getElem hb,
    List.getD_eq_getElem _ _ ha, List.getD_eq_getElem _ _ hb]
  rfl

/-- C4: the derived calibration function is index-aligned with the calibration
observation's frequency array, and at every channel whose smoothed antenna
temperature is nonzero it satisfies
expected_flux[i] = calibration[i] * smoothed_antenna_temp[i] (exactly, over ℚ). -/
theorem cal_func_mult_consistent (calFreqs expected antennaTemp : List ℚ) (size : ℕ)
    (hf : antennaTemp.length = calFreqs.length)
    (he : expected.length = calFreqs.length) :
    (calFunc expected antennaTemp size).length = calFreqs.length ∧
    ∀ i, i < calFreqs.length →
      (median_filter antennaTemp size).getD i 0 ≠ 0 →
      expected.getD i 0 =
        (calFunc expected antennaTemp size).getD i 0 *
          (median_filter antennaTemp size).getD i 0 := by
  have hm : (median_filter antennaTemp size).length = calFreqs.length := by
    rw [median_filter_length, hf]
  constructor
  · simp [calFunc, he, hm]
  · intro i hi hnz
    rw [calFunc, zipWith_div_getD _ _ _ (he ▸ hi) (hm ▸ hi), div_mul_cancel₀ _ hnz]

/-- Witness for C4 at the concrete input Cal_Freqs = [10], expected = [6],
antenna temperature = [2], window width 1: the smoothed value is 2 and
6 = (6/2) * 2. -/
theorem cal_func_mult_consistent_witness :
    ([2] : List ℚ).length = ([10] : List ℚ).length ∧
    ([6] : List ℚ).length = ([10] : List ℚ).length ∧
    (median_filter [2] 1).getD 0 0 ≠ 0 ∧
    ([6] : List ℚ).getD 0 0 =
      (calFunc [6] [2] 1).getD 0 0 * (median_filter [2] 1).getD 0 0 := by
  have h := cal_func_mult_consistent [10] [6] [2] 1 rfl rfl
  exact ⟨rfl, rfl, by decide, h.2 0 (by norm_num) (by decide)⟩

/-- C6: applying a calibration whose curve lives on a different frequency grid
first resamples it by linear interpolation onto the target grid (on an inner
segment the resampled value is the linear interpolant), and the resampled
curve, the calibration multipliers and the calibrated flux-density array all
have length equal to the target observation's channel count. -/
theorem calibration_interp_apply (targetFreqs targetData calFreqs calFD : List ℚ)
    (size : ℕ) (hlen : targetData.length = targetFreqs.length) :
    (npInterp targetFreqs calFreqs calFD).length = targetFreqs.length ∧
    (bandCal targetFreqs targetData calFreqs calFD size).length = targetFreqs.length ∧
    (calibratedFlux (bandCal targetFreqs targetData calFreqs calFD size)
      targetData).length = targetFreqs.length ∧
    (∀ x x0 f0 x1 f1 : ℚ, x0 < x → x ≤ x1 →
      interpP x [(x0, f0), (x1, f1)] = f0 + (x - x0) * (f1 - f0) / (x1 - x0)) := by
  have h1 : (npInterp targetFreqs calFreqs calFD).length = targetFreqs.length := by
    simp [npInterp]
  have h2 : (bandCal targetFreqs targetData calFreqs calFD size).length
      = targetFreqs.length := by
    simp [bandCal, calFunc, median_filter_length, h1, hlen]
  refine ⟨h1, h2, by simp [calibratedFlux, h2, hlen], fun x x0 f0 x1 f1 hx0 hx1 => ?_⟩
  rw [interpP, if_neg (not_le.mpr hx0), if_pos hx1]

/-- Witness for C6 at target frequencies [1, 2], target data [10, 20],
calibration grid [0, 4] with values [0, 8], window width 1; the inner-segment
conjunct is instantiated at x = 1 on the segment from (0, 0) to (4, 8). -/
theorem calibration_interp_apply_witness :
    ([10, 20] : List ℚ).length = ([1, 2] : List ℚ).length ∧
    (npInterp [1, 2] [0, 4] [0, 8]).length = 2 ∧
    (calibratedFlux (bandCal [1, 2] [10, 20] [0, 4] [0, 8] 1) [10, 20]).length = 2 ∧
    interpP 1 [((0 : ℚ), (0 : ℚ)), ((4 : ℚ), (8 : ℚ))] =
      0 + (1 - 0) * (8 - 0) / (4 - 0) := by
  have h := calibration_interp_apply [1, 2] [10, 20] [0, 4] [0, 8] 1 rfl
  exact ⟨rfl, h.1, h.2.2.1, h.2.2.2 1 0 0 4 8 (by norm_num) (by norm_num)⟩

end AxionSearch
